import Mathlib

/-!
Verification of the core of `script/setup.js` from gobelins-setup-demo:
the recursive configuration-tree merge `deepMerge`, the source-literal
serializer `objectToJSLiteral`, and the argument/lookup validation of the
orchestrator `main`.

Configuration trees (spec section 3) are null, undefined, primitives
(string / number / boolean), ordered sequences, or insertion-ordered
mappings from string keys to trees.  JavaScript objects are modelled as
association lists whose key lists are duplicate-free (JS objects cannot
hold a key twice); the lists carry the keys in property creation order.
The order a JS object actually enumerates differs from creation order
for integer-like (array-index) keys, which ECMAScript fronts in
ascending numeric order before the remaining string keys; `jsEnumKeys`
models that enumeration order on top of the creation-ordered lists.
-/

set_option autoImplicit false
set_option linter.unusedVariables false

namespace Setup

/-- A JSON-like configuration tree: null, undefined, string, number,
boolean, array, or insertion-ordered object. -/
inductive JTree where
  | jnull
  | jundef
  | str (s : String)
  | num (n : Int)
  | bool (b : Bool)
  | arr (items : List JTree)
  | obj (entries : List (String × JTree))

/-- `right === null || right === undefined` / `left === null || left === undefined`
in `deepMerge`. -/
def isNullish : JTree → Bool
  | JTree.jnull => true
  | JTree.jundef => true
  | _ => false

/-- `Array.isArray`. -/
def JTree.isArr : JTree → Bool
  | JTree.arr _ => true
  | _ => false

/-- JS property read `l[k]`: the value at the first occurrence of key `k`. -/
def lookupKey : List (String × JTree) → String → Option JTree
  | [], _ => none
  | (k', v) :: rest, k => if k' = k then some v else lookupKey rest k

/-- JS property write `l[k] = v` on the property *creation order*:
replace the value at an existing key in place (keeping its creation
position), or record the new key at the end.  The order a JS object
actually enumerates (`for...in`, `Object.entries`, spread) additionally
moves array-index keys to the front in ascending numeric order; that
reordering is modelled separately by `jsEnumKeys`. -/
def setKey : List (String × JTree) → String → JTree → List (String × JTree)
  | [], k, v => [(k, v)]
  | (k', v') :: rest, k, v =>
    if k' = k then (k, v) :: rest else (k', v') :: setKey rest k v

mutual

/-- Embedding of `deepMerge(left, right)` from `script/setup.js`:
null/undefined on the right yields the left tree; null/undefined on the
left yields the right tree; a primitive right always wins; arrays
concatenate when both sides are arrays and otherwise the right array
wins; when both sides are objects the entries merge key-wise via
`mergeEntries`; in every remaining case the right tree wins. -/
def deepMerge : JTree → JTree → JTree
  | left, right =>
    if isNullish right then left
    else if isNullish left then right
    else
      match right with
      | JTree.arr os =>
        match left with
        | JTree.arr bs => JTree.arr (bs ++ os)
        | _ => right
      | JTree.obj os =>
        match left with
        | JTree.obj bs => JTree.obj (mergeEntries bs os)
        | _ => right
      | _ => right
termination_by _ r => sizeOf r

/-- The `for (const key in right)` loop of `deepMerge`: fold the override
entries over the accumulating result (a copy of the base).  A key whose
current value and override value are both non-null non-array objects is
merged recursively; any other key is overwritten/set directly. -/
def mergeEntries : List (String × JTree) → List (String × JTree) → List (String × JTree)
  | acc, [] => acc
  | acc, (k, JTree.obj ov) :: rest =>
    let acc' :=
      match lookupKey acc k with
      | some (JTree.obj bv) => setKey acc k (deepMerge (JTree.obj bv) (JTree.obj ov))
      | _ => setKey acc k (JTree.obj ov)
    mergeEntries acc' rest
  | acc, (k, v) :: rest => mergeEntries (setKey acc k v) rest
termination_by _ l => sizeOf l

end

/-! ### String plumbing for the serializer

The serializer manipulates its intermediate renderings with a handful of
JavaScript string operations (`split('\n')`, `trimStart()`,
`match(/^\s*/)`, `' '.repeat(n)`, `Array.join`).  Each is modelled here
as a structurally recursive function over the character list of the
string, so that every concrete rendering can be evaluated inside proofs. -/

/-- Concatenation of a list of strings (JS template splicing /
`String.join` with empty separator). -/
def concatAll : List String → String
  | [] => ""
  | s :: rest => s ++ concatAll rest

/-- `Array.prototype.join(sep)`. -/
def joinSep (sep : String) : List String → String
  | [] => ""
  | [s] => s
  | s :: rest => s ++ sep ++ joinSep sep rest

/-- Character-list worker for `String.prototype.split('\n')`. -/
def splitNlChars : List Char → List (List Char)
  | [] => [[]]
  | c :: cs =>
    let r := splitNlChars cs
    if c = '\n' then [] :: r
    else
      match r with
      | [] => [[c]]
      | l :: ls => (c :: l) :: ls

/-- `str.split('\n')`. -/
def splitLines (s : String) : List String :=
  (splitNlChars s.data).map String.mk

/-- `str.trimStart()`. -/
def trimStart (s : String) : String :=
  String.mk (s.data.dropWhile Char.isWhitespace)

/-- `str.match(/^\s*/)[0].length`: the number of leading whitespace
characters. -/
def leadingWs (s : String) : Nat :=
  (s.data.takeWhile Char.isWhitespace).length

/-- `str.startsWith(c)` for a single-character prefix. -/
def startsWithChar (s : String) (c : Char) : Bool :=
  match s.data with
  | [] => false
  | c' :: _ => c' = c

/-- `str.substring(1)`. -/
def dropFirst (s : String) : String :=
  String.mk (s.data.drop 1)

/-- The decimal digit character for `n < 10`. -/
def digitChar (n : Nat) : Char := Char.ofNat (48 + n)

/-- Decimal digits of a natural number, with fuel for structural
recursion (the fuel `n + 1` always suffices). -/
def natDecimalChars : Nat → Nat → List Char
  | 0, _ => []
  | fuel + 1, n =>
    if n < 10 then [digitChar n]
    else natDecimalChars fuel (n / 10) ++ [digitChar (n % 10)]

/-- Decimal rendering of a natural number. -/
def natToDecimal (n : Nat) : String := String.mk (natDecimalChars (n + 1) n)

/-- `JSON.stringify` of an (integral) number. -/
def intToDecimal (i : Int) : String :=
  if i < 0 then "-" ++ natToDecimal i.natAbs else natToDecimal i.natAbs

/-! ### The literal serializer `objectToJSLiteral` -/

/-- `' '.repeat(n)`. -/
def spacesN (n : Nat) : String := String.mk (List.replicate n ' ')

/-- One hexadecimal digit (lowercase), for control-character escapes. -/
def hexDigit (n : Nat) : Char :=
  if n < 10 then Char.ofNat (48 + n) else Char.ofNat (87 + n)

/-- Four hexadecimal digits, for `\u....` escapes. -/
def hex4 (n : Nat) : String :=
  String.mk [hexDigit (n / 4096 % 16), hexDigit (n / 256 % 16),
    hexDigit (n / 16 % 16), hexDigit (n % 16)]

/-- How `JSON.stringify` renders one character inside a string literal. -/
def escapeChar (c : Char) : String :=
  if c = '"' then "\\\""
  else if c = '\\' then "\\\\"
  else if c = '\n' then "\\n"
  else if c = '\r' then "\\r"
  else if c = '\t' then "\\t"
  else if c = Char.ofNat 8 then "\\b"
  else if c = Char.ofNat 12 then "\\f"
  else if c.toNat < 32 then "\\u" ++ hex4 c.toNat
  else String.singleton c

/-- `JSON.stringify` of a string: a quoted, escaped string literal. -/
def jsonQuote (s : String) : String :=
  "\"" ++ concatAll (s.data.map escapeChar) ++ "\""

/-- First character of the bare-identifier pattern `[a-zA-Z_$]`. -/
def isIdentStart (c : Char) : Bool := c.isAlpha || c = '_' || c = '$'

/-- Continuation character of the bare-identifier pattern `[a-zA-Z0-9_$]`. -/
def isIdentChar (c : Char) : Bool := c.isAlphanum || c = '_' || c = '$'

/-- The test `/^[a-zA-Z_$][a-zA-Z0-9_$]*$/.test(key)` deciding whether a
mapping key may be rendered bare. -/
def isIdentifier (s : String) : Bool :=
  match s.data with
  | [] => false
  | c :: cs => isIdentStart c && cs.all isIdentChar

/-- The per-item reflow inside the array branch of `objectToJSLiteral`:
a single-line item is indented to `itemIndent`; a multi-line item is kept
as-is when its first line already sits at `itemIndent` and otherwise has
its first line re-indented to `itemIndent`. -/
def formatArrayItem (itemStr : String) (itemIndent : Nat) : String :=
  let lines := splitLines itemStr
  if lines.length = 1 then
    spacesN itemIndent ++ trimStart (lines.headD "")
  else
    let firstLine := lines.headD ""
    let firstLineIndent := leadingWs firstLine
    if firstLineIndent = itemIndent then itemStr
    else joinSep "\n" ((spacesN itemIndent ++ trimStart firstLine) :: lines.drop 1)

/-- The per-entry formatting inside the mapping branch of
`objectToJSLiteral`: quote the key unless it matches the bare-identifier
pattern; lay a single-line value after `key: `; for a multi-line value,
pull its first line (trimmed) up behind `key: `, keep the interior lines
unchanged, and re-indent its last line to the entry's own indent. -/
def formatEntry (indent : Nat) (key : String) (valueStr : String) : String :=
  let spaces := spacesN indent
  let keyStr := if isIdentifier key then key else jsonQuote key
  let valueLines := splitLines valueStr
  if valueLines.length = 1 then
    spaces ++ keyStr ++ ": " ++ valueStr
  else
    let firstValueLine := trimStart (valueLines.headD "")
    let middleLines := (valueLines.drop 1).dropLast
    let lastLine := valueLines.getLastD ""
    let closingBrace := spacesN indent ++ trimStart lastLine
    spaces ++ keyStr ++ ": " ++ firstValueLine ++ "\n" ++
      joinSep "\n" middleLines ++ "\n" ++ closingBrace

mutual

/-- Embedding of `objectToJSLiteral(obj, indent)` from `script/setup.js`:
null and undefined map to their literal tokens; a string starting with
the `$` sentinel is emitted bare with the sentinel stripped, any other
string as a quoted literal; numbers and booleans print their literal
form; an empty array is `[]` and a non-empty array a multi-line bracketed
list with items at `indent + 2`; an empty object is `\x7b\x7d` and a
non-empty object a multi-line braced block of `formatEntry` lines. -/
def objectToJSLiteral : JTree → Nat → String
  | JTree.jnull, _ => "null"
  | JTree.jundef, _ => "undefined"
  | JTree.str s, _ => if startsWithChar s '$' then dropFirst s else jsonQuote s
  | JTree.num n, _ => intToDecimal n
  | JTree.bool b, _ => if b then "true" else "false"
  | JTree.arr items, indent =>
    if items.isEmpty then "[]"
    else
      "[\n" ++ joinSep ",\n" (serializeItems items (indent + 2)) ++
        "\n" ++ spacesN indent ++ "]"
  | JTree.obj entries, indent =>
    if entries.isEmpty then "\x7b\x7d"
    else
      spacesN indent ++ "\x7b\n" ++
        joinSep ",\n" (serializeEntries entries indent) ++
        "\n" ++ spacesN indent ++ "\x7d"
termination_by t _ => sizeOf t

/-- `obj.map(item => ...)` in the array branch: serialize each item at
`itemIndent` and reflow it with `formatArrayItem`. -/
def serializeItems : List JTree → Nat → List String
  | [], _ => []
  | item :: rest, itemIndent =>
    formatArrayItem (objectToJSLiteral item itemIndent) itemIndent ::
      serializeItems rest itemIndent
termination_by l _ => sizeOf l

/-- `entries.map(([key, value]) => ...)` in the mapping branch: an
array-valued entry serializes its value at the entry's own indent, every
other value at `indent + 2`; the rendeing is laid out by `formatEntry`. -/
def serializeEntries : List (String × JTree) → Nat → List String
  | [], _ => []
  | (key, value) :: rest, indent =>
    let valueStr :=
      if value.isArr then objectToJSLiteral value indent
      else objectToJSLiteral value (indent + 2)
    formatEntry indent key valueStr :: serializeEntries rest indent
termination_by l _ => sizeOf l

end

/-! ### Lemmas about the merge -/

/-- The base tree of the end-to-end scenario of claim C7. -/
def demoBase : JTree := JTree.obj [("name", JTree.str "demo")]

/-- The override tree of the end-to-end scenario of claim C7. -/
def demoOverride : JTree :=
  JTree.obj [("owner", JTree.str "ecni2027"), ("slug", JTree.str "groupeX"),
    ("ios", JTree.obj [("bundleIdentifier", JTree.str "$identifier")])]

/-- The entry list of the merged tree of claim C7. -/
def demoMerged : List (String × JTree) :=
  [("name", JTree.str "demo"), ("owner", JTree.str "ecni2027"),
    ("slug", JTree.str "groupeX"),
    ("ios", JTree.obj [("bundleIdentifier", JTree.str "$identifier")])]

/-! ### The orchestrator `main`

The orchestrator performs I/O; it is embedded as a pure function from an
environment describing the invocation and the relevant filesystem facts
to the process exit code paired with the ordered trace of filesystem
mutations and subprocess runs it performs. -/

/-- One side effect of `main`: a filesystem mutation or the dependency
install subprocess. -/
inductive FsOp where
  | removeTree (p : String)
  | copyTree (src dst : String)
  | copyFile (src dst : String)
  | runInstall
  | writeFile (p : String)
  | deleteFile (p : String)
  deriving DecidableEq, Repr

/-- The invocation of `main` after argument parsing: the parsed target
path and group name, and the filesystem/subprocess facts `main`
consults, in the order it consults them. -/
structure MainEnv where
  targetPath : Option String
  groupName : Option String
  targetExists : Bool
  catalog : List String
  easSourceExists : Bool
  easTargetExists : Bool
  easJsonSourceExists : Bool
  installSucceeds : Bool
  appJsonExists : Bool

/-- Embedding of the body of `main` from `script/setup.js`: validate the
target path, the group option, the resolved path's existence and the
group-catalog lookup (each failure exits 1 having performed no
filesystem operation); then copy the `.eas` folder (removing a stale
copy first), copy `eas.json`, run the dependency install (a failure
exits 1), require `app.json`, write `app.config.ts` and delete
`app.json`. -/
def mainModel (env : MainEnv) : Nat × List FsOp :=
  match env.targetPath with
  | none => (1, [])
  | some _ =>
    match env.groupName with
    | none => (1, [])
    | some g =>
      if env.targetExists = false then (1, [])
      else if (env.catalog.contains g) = false then (1, [])
      else
        let easOps :=
          if env.easSourceExists then
            (if env.easTargetExists then [FsOp.removeTree "target/.eas"] else []) ++
              [FsOp.copyTree "source/.eas" "target/.eas"]
          else []
        let easJsonOps :=
          if env.easJsonSourceExists then
            [FsOp.copyFile "source/eas.json" "target/eas.json"]
          else []
        let preInstall := easOps ++ easJsonOps
        if env.installSucceeds = false then (1, preInstall ++ [FsOp.runInstall])
        else if env.appJsonExists = false then (1, preInstall ++ [FsOp.runInstall])
        else
          (0, preInstall ++ [FsOp.runInstall,
            FsOp.writeFile "target/app.config.ts", FsOp.deleteFile "target/app.json"])

/-! ### JS own-property enumeration order

`for...in`, `Object.entries` and spread enumerate an object's string
keys per ECMAScript `OrdinaryOwnPropertyKeys`: first the keys that are
canonical array indices (digit strings with no leading zero whose
numeric value is below `2^32 - 1`) in ascending numeric order, then the
remaining string keys in property creation order. -/

/-- C2 as stated is false on the code: a null-like sentinel on the
override side does *not* win — `deepMerge` returns the base tree when the
override is null, so `merge(\x7ba:1\x7d, null)` is `\x7ba:1\x7d`, not
`null`. -/
theorem c2_counterexample :
    deepMerge (JTree.obj [("a", JTree.num 1)]) JTree.jnull ≠ JTree.jnull := by
  simp [deepMerge, isNullish]

/-- C2 (amended): for every tree `X`, a string, number, or boolean
override always wins, while the null-like sentinels (null, undefined) on
the override side yield `X` instead. -/
theorem c2_primitive_override (X : JTree) (s : String) (n : Int) (b : Bool) :
    deepMerge X (JTree.str s) = JTree.str s ∧
    deepMerge X (JTree.num n) = JTree.num n ∧
    deepMerge X (JTree.bool b) = JTree.bool b ∧
    deepMerge X JTree.jnull = X ∧
    deepMerge X JTree.jundef = X := by
  cases X <;> simp [deepMerge, isNullish]

/-- C3: null is an identity for the merge on non-null(-like) arguments:
`merge(X, null) = X` and `merge(null, Y) = Y`. -/
theorem c3_null_identity (X Y : JTree)
    (hX : isNullish X = false) (hY : isNullish Y = false) :
    deepMerge X JTree.jnull = X ∧ deepMerge JTree.jnull Y = Y := by
  refine ⟨by simp [deepMerge, isNullish], ?_⟩
  cases Y <;> simp_all [deepMerge, isNullish]

/-- Witness for C3 at a concrete number and string. -/
theorem c3_null_identity_witness :
    deepMerge (JTree.num 3) JTree.jnull = JTree.num 3 ∧
    deepMerge JTree.jnull (JTree.str "a") = JTree.str "a" :=
  c3_null_identity (JTree.num 3) (JTree.str "a") rfl rfl

/-- C4: merging two sequences concatenates the base elements with the
override elements (no deduplication, no element-wise replacement), a
sequence override replaces any non-sequence base, and
`merge([1,2], [3]) = [1,2,3]`. -/
theorem c4_sequences (bs os : List JTree) (B : JTree) (hB : B.isArr = false) :
    deepMerge (JTree.arr bs) (JTree.arr os) = JTree.arr (bs ++ os) ∧
    deepMerge B (JTree.arr os) = JTree.arr os ∧
    deepMerge (JTree.arr [JTree.num 1, JTree.num 2]) (JTree.arr [JTree.num 3]) =
      JTree.arr [JTree.num 1, JTree.num 2, JTree.num 3] := by
  refine ⟨by simp [deepMerge, isNullish], ?_, by simp [deepMerge, isNullish]⟩
  cases B <;> simp_all [deepMerge, isNullish, JTree.isArr]

/-- Witness for C4 at concrete sequences and a concrete mapping base. -/
theorem c4_sequences_witness :
    deepMerge (JTree.arr [JTree.num 1]) (JTree.arr [JTree.num 2]) =
      JTree.arr [JTree.num 1, JTree.num 2] ∧
    deepMerge (JTree.obj []) (JTree.arr [JTree.num 2]) = JTree.arr [JTree.num 2] ∧
    deepMerge (JTree.arr [JTree.num 1, JTree.num 2]) (JTree.arr [JTree.num 3]) =
      JTree.arr [JTree.num 1, JTree.num 2, JTree.num 3] :=
  c4_sequences [JTree.num 1] [JTree.num 2] (JTree.obj []) rfl

/-- C5: a string leaf whose first character is the `$` sentinel is
emitted with that character stripped and without quotes; any other
string is emitted as a quoted, escaped string literal; serializing
`"$foo"` yields bare `foo` and serializing `"foo"` yields `"foo"`. -/
theorem c5_string_leaves (s : String) (indent : Nat) :
    objectToJSLiteral (JTree.str s) indent =
      (if startsWithChar s '$' = true then String.mk (s.data.drop 1)
       else "\"" ++ concatAll (s.data.map escapeChar) ++ "\"") ∧
    objectToJSLiteral (JTree.str "$foo") 0 = "foo" ∧
    objectToJSLiteral (JTree.str "foo") 0 = "\"foo\"" := by
  refine ⟨by simp [objectToJSLiteral, dropFirst, jsonQuote], ?_, ?_⟩
  · simp only [objectToJSLiteral]
    decide
  · simp only [objectToJSLiteral]
    decide

/-- C8: a mapping entry's key is rendered bare exactly when it matches
the bare-identifier pattern (a letter, underscore, or dollar sign
followed by letters, digits, underscores, or dollar signs) and quoted as
a string literal otherwise: every rendered entry starts with the indent,
then the bare-or-quoted key, then a colon and space; key `my-key`
renders quoted and key `myKey` renders bare. -/
theorem c8_key_quoting (k : String) (v : JTree) (rest : List (String × JTree)) (indent : Nat) :
    (∃ t, (serializeEntries ((k, v) :: rest) indent).headD "" =
        spacesN indent ++ (if isIdentifier k then k else jsonQuote k) ++ ": " ++ t) ∧
    objectToJSLiteral (JTree.obj [("my-key", JTree.num 1)]) 0 =
      "\x7b\n\"my-key\": 1\n\x7d" ∧
    objectToJSLiteral (JTree.obj [("myKey", JTree.num 1)]) 0 =
      "\x7b\nmyKey: 1\n\x7d" := by
  refine ⟨?_, ?_, ?_⟩
  · simp only [serializeEntries, List.headD_cons, formatEntry]
    set V := (if v.isArr = true then objectToJSLiteral v indent
      else objectToJSLiteral v (indent + 2)) with hV
    by_cases hlen : (splitLines V).length = 1
    · exact ⟨V, by rw [if_pos hlen]⟩
    · refine ⟨trimStart ((splitLines V).headD "") ++ "\n" ++
        joinSep "\n" (((splitLines V).drop 1).dropLast) ++ "\n" ++
        (spacesN indent ++ trimStart ((splitLines V).getLastD "")), ?_⟩
      rw [if_neg hlen]
      simp only [String.append_assoc]
  · simp only [objectToJSLiteral, serializeEntries]
    decide
  · simp only [objectToJSLiteral, serializeEntries]
    decide

/-- C6: a non-empty mapping entry whose value renders to several lines
is laid out by pulling the first line of the value's rendering (trimmed)
onto the `key: ` line, passing the interior lines through unchanged, and
re-indenting the final line to the entry's own indent; the value of an
array-valued entry is rendered at the entry's indent while every other
value is rendered at the entry's indent plus two — so a serialized
array's closing bracket aligns with its sibling entries. -/
theorem c6_multiline_layout (k : String) (v : JTree) (rest : List (String × JTree)) (indent : Nat)
    (h : 2 ≤ (splitLines (if v.isArr then objectToJSLiteral v indent
        else objectToJSLiteral v (indent + 2))).length) :
    ((serializeEntries ((k, v) :: rest) indent).headD "" =
      (let valueStr := if v.isArr then objectToJSLiteral v indent
          else objectToJSLiteral v (indent + 2)
       let lines := splitLines valueStr
       spacesN indent ++ (if isIdentifier k then k else jsonQuote k) ++ ": " ++
         trimStart (lines.headD "") ++ "\n" ++ joinSep "\n" ((lines.drop 1).dropLast) ++
         "\n" ++ (spacesN indent ++ trimStart (lines.getLastD "")))) ∧
    objectToJSLiteral (JTree.obj [("plugins", JTree.arr [JTree.num 1, JTree.num 2])]) 2 =
      "  \x7b\n  plugins: [\n    1,\n    2\n  ]\n  \x7d" := by
  refine ⟨?_, ?_⟩
  · have hlen :
        ¬ (splitLines (if v.isArr = true then objectToJSLiteral v indent
          else objectToJSLiteral v (indent + 2))).length = 1 := by
      omega
    simp only [serializeEntries, List.headD_cons, formatEntry]
    rw [if_neg hlen]
  · simp only [objectToJSLiteral, serializeEntries, serializeItems]
    decide

/-- Witness for C6: a mapping-valued entry at indent 0 whose rendering
is multi-line. -/
theorem c6_multiline_layout_witness :
    ((serializeEntries [("a", JTree.obj [("b", JTree.num 1)])] 0).headD "" =
      (let valueStr := if (JTree.obj [("b", JTree.num 1)]).isArr
          then objectToJSLiteral (JTree.obj [("b", JTree.num 1)]) 0
          else objectToJSLiteral (JTree.obj [("b", JTree.num 1)]) (0 + 2)
       let lines := splitLines valueStr
       spacesN 0 ++ (if isIdentifier "a" then "a" else jsonQuote "a") ++ ": " ++
         trimStart (lines.headD "") ++ "\n" ++ joinSep "\n" ((lines.drop 1).dropLast) ++
         "\n" ++ (spacesN 0 ++ trimStart (lines.getLastD "")))) ∧
    objectToJSLiteral (JTree.obj [("plugins", JTree.arr [JTree.num 1, JTree.num 2])]) 2 =
      "  \x7b\n  plugins: [\n    1,\n    2\n  ]\n  \x7d" :=
  c6_multiline_layout "a" (JTree.obj [("b", JTree.num 1)]) [] 0
    (by simp only [objectToJSLiteral, serializeEntries, JTree.isArr]; decide)

/-- C7: the end-to-end scenario: merging the base with the group
override yields the expected tree, serializing it at indent 2 yields the
expected text, and the `ios` entry renders — after its own two-space key
indent — exactly as `ios: \x7b` newline `    bundleIdentifier:
identifier` newline `  \x7d`, with the identifier reference unquoted. -/
theorem c7_end_to_end :
    deepMerge demoBase demoOverride = JTree.obj demoMerged ∧
    objectToJSLiteral (JTree.obj demoMerged) 2 =
      "  \x7b\n  name: \"demo\",\n  owner: \"ecni2027\",\n  slug: \"groupeX\"," ++
        "\n  ios: \x7b\n    bundleIdentifier: identifier\n  \x7d\n  \x7d" ∧
    (serializeEntries demoMerged 2).getLastD "" =
      "  " ++ "ios: \x7b\n    bundleIdentifier: identifier\n  \x7d" := by
  refine ⟨?_, ?_, ?_⟩
  · simp [demoBase, demoOverride, demoMerged, deepMerge, mergeEntries,
      lookupKey, setKey, isNullish]
  · simp only [demoMerged, objectToJSLiteral, serializeEntries]
    decide
  · simp only [demoMerged, serializeEntries, objectToJSLiteral]
    decide

/-! ### Claim theorem about the orchestrator -/

/-- C9: an invocation with a target path that exists and a group name
absent from the group catalog exits with code 1 and performs no
filesystem operation at all. -/
theorem c9_unknown_group (env : MainEnv) (p g : String)
    (hp : env.targetPath = some p) (hg : env.groupName = some g)
    (hexists : env.targetExists = true)
    (habsent : env.catalog.contains g = false) :
    mainModel env = (1, []) := by
  simp only [mainModel, hp, hg, hexists, habsent]
  simp

/-- Witness for C9: a concrete invocation naming a group outside the
catalog. -/
theorem c9_unknown_group_witness :
    mainModel
      { targetPath := some "./my-project", groupName := some "groupeX",
        targetExists := true, catalog := ["demo", "groupe3", "groupe9"],
        easSourceExists := true, easTargetExists := false,
        easJsonSourceExists := true, installSucceeds := true,
        appJsonExists := true } = (1, []) :=
  c9_unknown_group _ "./my-project" "groupeX" rfl rfl rfl (by decide)

end Setup

